import Mathlib

/-!
Verification development for the Aurora file I/O overlay library.

Aurora provides two parallel file-handle classes over native C I/O:

* `CFile` (buffered, wraps a C `FILE*` stream), and
* `PosixFile` (descriptor-based, wraps an integer file descriptor).

Both translate native-call failures into a taxonomy of typed exceptions
(`file_open_error`, `file_close_error`, `file_read_error`, ...).

This file shallowly embeds the operations of both classes.  Native calls
(`open`, `close`, `fclose`, `lseek`, `ftello`, `fread`, `fwrite`, `fgetc`,
`fputs`, ...) are modelled by their observable outcomes: each embedded
operation takes the native result (and, where the source inspects it, the
errno value after the call) as an explicit argument, and the retry loops
take a list of per-call outcomes.  Exceptions are modelled by `Except`
with the error kind as payload; the kind is what the claims are about, so
messages and numeric codes are not tracked.
-/

namespace Aurora

/-- The error taxonomy declared in AuroraFileExceptions.hpp: each exception
class is one distinguishable kind. -/
inductive FileErrorKind where
| OpenError
| CloseError
| StatusError
| FlushError
| ReadError
| WriteError
| SeekError
| TellError
| TruncationError
| MemoryMappingError
| EmptyFileError
| UnexpectedEndOfFileError
deriving DecidableEq, Repr

/-- In-memory state of a `PosixFile` object: the stored file descriptor
field `m_siFileDescriptor` (an `sint32_t`, `-1` when invalid). -/
structure PosixFileHandle where
  fileDescriptor : Int
deriving DecidableEq, Repr

/-- In-memory state of a `CFile` object: the stored stream pointer field
`m_pkFilePointer`, modelled as `Option Nat` (`none` is the null pointer). -/
structure CFileHandle where
  filePointer : Option Nat
deriving DecidableEq, Repr

namespace PosixFile

/-- Embedding of `PosixFile::~PosixFile`.  `closeResult` is the return value
of the native `close(m_siFileDescriptor)` call.  A negative result throws
`file_close_error`; since the throw leaves the function, the assignment
`m_siFileDescriptor = -1` that follows the check only runs on the success
path.  Returns the thrown-or-normal outcome together with the object state
after the destructor body. -/
def destructor (h : PosixFileHandle) (closeResult : Int) :
    Except FileErrorKind Unit × PosixFileHandle :=
  if closeResult < 0 then
    (Except.error FileErrorKind.CloseError, h)
  else
    (Except.ok (), { h with fileDescriptor := -1 })

/-- Embedding of `PosixFile::GetFilePosition`.  `lseekResult` is the return
value of `lseek(fd, 0, SEEK_CUR)`; a negative result throws
`file_seek_error`, otherwise the nonnegative position is returned. -/
def GetFilePosition (lseekResult : Int) : Except FileErrorKind Nat :=
  if lseekResult < 0 then Except.error FileErrorKind.SeekError
  else Except.ok lseekResult.toNat

/-- Embedding of `PosixFile::SetFilePosition`: a negative `lseek` result
throws `file_seek_error`. -/
def SetFilePosition (lseekResult : Int) : Except FileErrorKind Unit :=
  if lseekResult < 0 then Except.error FileErrorKind.SeekError
  else Except.ok ()

/-- Embedding of `PosixFile::SeekSet`: a negative `lseek` result throws
`file_seek_error`. -/
def SeekSet (lseekResult : Int) : Except FileErrorKind Unit :=
  if lseekResult < 0 then Except.error FileErrorKind.SeekError
  else Except.ok ()

/-- Embedding of `PosixFile::SeekCurrent`: a negative `lseek` result throws
`file_seek_error`. -/
def SeekCurrent (lseekResult : Int) : Except FileErrorKind Unit :=
  if lseekResult < 0 then Except.error FileErrorKind.SeekError
  else Except.ok ()

/-- Embedding of `PosixFile::SeekEnd`: a negative `lseek` result throws
`file_seek_error`. -/
def SeekEnd (lseekResult : Int) : Except FileErrorKind Unit :=
  if lseekResult < 0 then Except.error FileErrorKind.SeekError
  else Except.ok ()

/-- Embedding of `PosixFile::GetFileLength`.  `fstatResult` is `none` when
the native `fstat` call fails (throwing `file_status_error`) and
`some size` with the reported `st_size` otherwise. -/
def GetFileLength (fstatResult : Option Nat) : Except FileErrorKind Nat :=
  match fstatResult with
  | none => Except.error FileErrorKind.StatusError
  | some size => Except.ok size

/-- Embedding of `PosixFile::EndOfFile`: returns
`GetFilePosition() >= GetFileLength()`, propagating either failure. -/
def EndOfFile (lseekResult : Int) (fstatResult : Option Nat) :
    Except FileErrorKind Bool := do
  let p ← GetFilePosition lseekResult
  let l ← GetFileLength fstatResult
  pure (decide (p ≥ l))

/-- Embedding of `PosixFile::GetBytesRemaining`: returns
`length - position` when the position is below the length and `0`
otherwise, propagating either failure. -/
def GetBytesRemaining (lseekResult : Int) (fstatResult : Option Nat) :
    Except FileErrorKind Nat := do
  let p ← GetFilePosition lseekResult
  let l ← GetFileLength fstatResult
  pure (if p < l then l - p else 0)

/-- Preconditions asserted by `PosixFile::ReadBytes` on its arguments:
`assert(0 == ulTotalBytes || nullptr != avBuffer)` and
`assert(ulTotalBytes <= numeric_limits of ssize_t max)`. -/
def ReadBytesPre (bufferIsNull : Bool) (totalBytes : Nat) : Bool :=
  (totalBytes = 0 || bufferIsNull = false) && totalBytes ≤ 2 ^ 63 - 1

/-- Preconditions asserted by `PosixFile::WriteBytes` on its arguments:
identical in form to those of `PosixFile::ReadBytes`. -/
def WriteBytesPre (bufferIsNull : Bool) (totalBytes : Nat) : Bool :=
  (totalBytes = 0 || bufferIsNull = false) && totalBytes ≤ 2 ^ 63 - 1

end PosixFile

namespace CFile

/-- Embedding of `CFile::~CFile`.  `fcloseResult` is the return value of the
native `fclose(m_pkFilePointer)` call.  A negative result throws
`file_close_error`; the assignment `m_pkFilePointer = nullptr` that follows
the check only runs on the success path. -/
def destructor (h : CFileHandle) (fcloseResult : Int) :
    Except FileErrorKind Unit × CFileHandle :=
  if fcloseResult < 0 then
    (Except.error FileErrorKind.CloseError, h)
  else
    (Except.ok (), { h with filePointer := none })

/-- Embedding of `CFile::GetFilePosition`.  `ftelloResult` is the return
value of `ftello(m_pkFilePointer)`; a negative result throws
`file_tell_error`, otherwise the nonnegative position is returned. -/
def GetFilePosition (ftelloResult : Int) : Except FileErrorKind Nat :=
  if ftelloResult < 0 then Except.error FileErrorKind.TellError
  else Except.ok ftelloResult.toNat

/-- Embedding of `CFile::SetFilePosition`: a negative `fseeko` result throws
`file_seek_error`. -/
def SetFilePosition (fseekoResult : Int) : Except FileErrorKind Unit :=
  if fseekoResult < 0 then Except.error FileErrorKind.SeekError
  else Except.ok ()

/-- Embedding of `CFile::SeekSet`: a negative `fseeko` result throws
`file_seek_error`. -/
def SeekSet (fseekoResult : Int) : Except FileErrorKind Unit :=
  if fseekoResult < 0 then Except.error FileErrorKind.SeekError
  else Except.ok ()

/-- Embedding of `CFile::SeekCurrent`: a negative `fseeko` result throws
`file_seek_error`. -/
def SeekCurrent (fseekoResult : Int) : Except FileErrorKind Unit :=
  if fseekoResult < 0 then Except.error FileErrorKind.SeekError
  else Except.ok ()

/-- Embedding of `CFile::SeekEnd`: a negative `fseeko` result throws
`file_seek_error`. -/
def SeekEnd (fseekoResult : Int) : Except FileErrorKind Unit :=
  if fseekoResult < 0 then Except.error FileErrorKind.SeekError
  else Except.ok ()

/-- Embedding of `CFile::GetFileLength`: `none` models a failing `fstat`
(throwing `file_status_error`), `some size` a successful one. -/
def GetFileLength (fstatResult : Option Nat) : Except FileErrorKind Nat :=
  match fstatResult with
  | none => Except.error FileErrorKind.StatusError
  | some size => Except.ok size

/-- Embedding of `CFile::EndOfFile`: returns
`GetFilePosition() >= GetFileLength()`, propagating either failure. -/
def EndOfFile (ftelloResult : Int) (fstatResult : Option Nat) :
    Except FileErrorKind Bool := do
  let p ← GetFilePosition ftelloResult
  let l ← GetFileLength fstatResult
  pure (decide (p ≥ l))

/-- Embedding of `CFile::GetBytesRemaining`: returns `length - position`
when the position is below the length and `0` otherwise, propagating either
failure. -/
def GetBytesRemaining (ftelloResult : Int) (fstatResult : Option Nat) :
    Except FileErrorKind Nat := do
  let p ← GetFilePosition ftelloResult
  let l ← GetFileLength fstatResult
  pure (if p < l then l - p else 0)

/-- The nested enum `CFile::FileType`. -/
inductive FileType where
| TEXT
| BINARY
deriving DecidableEq, Repr

/-- The nested enum `CFile::FileAccessMode`. -/
inductive FileAccessMode where
| READ
| WRITE
| APPEND
| READ_EXTENDED
| WRITE_EXTENDED
| APPEND_EXTENDED
deriving DecidableEq, Repr

/-- The static table `CFile::FILE_ACCESS_MODE_STRINGS`, indexed by access
mode then file type exactly as the two-dimensional array in the source. -/
def FILE_ACCESS_MODE_STRINGS (m : FileAccessMode) (t : FileType) : String :=
  match m, t with
  | FileAccessMode.READ, FileType.TEXT => "r"
  | FileAccessMode.READ, FileType.BINARY => "rb"
  | FileAccessMode.WRITE, FileType.TEXT => "w"
  | FileAccessMode.WRITE, FileType.BINARY => "wb"
  | FileAccessMode.APPEND, FileType.TEXT => "a"
  | FileAccessMode.APPEND, FileType.BINARY => "ab"
  | FileAccessMode.READ_EXTENDED, FileType.TEXT => "r+"
  | FileAccessMode.READ_EXTENDED, FileType.BINARY => "rb+"
  | FileAccessMode.WRITE_EXTENDED, FileType.TEXT => "w+"
  | FileAccessMode.WRITE_EXTENDED, FileType.BINARY => "wb+"
  | FileAccessMode.APPEND_EXTENDED, FileType.TEXT => "a+"
  | FileAccessMode.APPEND_EXTENDED, FileType.BINARY => "ab+"

/-- The mode string the `CFile` constructor passes to `fopen`: the source
indexes `FILE_ACCESS_MODE_STRINGS` with the stored access mode and file
type, in that order. -/
def constructorFopenMode (t : FileType) (m : FileAccessMode) : String :=
  FILE_ACCESS_MODE_STRINGS m t

/-- Embedding of `CFile::IsReadOnly`, computed from the stored access
mode. -/
def IsReadOnly (m : FileAccessMode) : Bool :=
  m = FileAccessMode.READ

/-- Embedding of `CFile::IsWriteOnly`, computed from the stored access
mode. -/
def IsWriteOnly (m : FileAccessMode) : Bool :=
  m = FileAccessMode.WRITE || m = FileAccessMode.APPEND

/-- Embedding of `CFile::IsReadWrite`, computed from the stored access
mode. -/
def IsReadWrite (m : FileAccessMode) : Bool :=
  m = FileAccessMode.READ_EXTENDED || m = FileAccessMode.WRITE_EXTENDED ||
    m = FileAccessMode.APPEND_EXTENDED

/-- Embedding of `CFile::IsTextFile`. -/
def IsTextFile (t : FileType) : Bool :=
  t = FileType.TEXT

/-- Embedding of `CFile::IsBinaryFile`. -/
def IsBinaryFile (t : FileType) : Bool :=
  t = FileType.BINARY

/-- The constant `CFile::BYTE_END_OF_FILE`, the C `EOF` marker. -/
def BYTE_END_OF_FILE : Int := -1

/-- The constant `CFile::WIDE_END_OF_FILE`, the C `WEOF` marker; on the
Darwin target the library is developed on, `wint_t` is a signed `int` and
`WEOF` is `-1`, which is what makes the `wcCharacter < 0` test in the
source meaningful. -/
def WIDE_END_OF_FILE : Int := -1

/-- Embedding of `CFile::GetByteCharacter`.  `fgetcResult` is the return
value of `fgetc` (a byte value, or `EOF` which is negative) and
`errnoAfter` the errno value after the call.  The source throws
`file_read_error` exactly when the result is negative and errno is
nonzero, and otherwise returns the result, `EOF` included. -/
def GetByteCharacter (fgetcResult : Int) (errnoAfter : Nat) :
    Except FileErrorKind Int :=
  if fgetcResult < 0 ∧ errnoAfter ≠ 0 then
    Except.error FileErrorKind.ReadError
  else
    Except.ok fgetcResult

/-- Embedding of `CFile::GetWideCharacter`.  `fgetwcResult` is the return
value of `fgetwc` (a wide character value, or `WEOF`, which is negative on
the Darwin target) and `errnoAfter` the errno value after the call.  The
source throws `file_read_error` exactly when the result is negative and
errno is nonzero. -/
def GetWideCharacter (fgetwcResult : Int) (errnoAfter : Nat) :
    Except FileErrorKind Int :=
  if fgetwcResult < 0 ∧ errnoAfter ≠ 0 then
    Except.error FileErrorKind.ReadError
  else
    Except.ok fgetwcResult

/-- One native character-read outcome for the string and line input loops:
the return value of `fgetc` or `fgetwc` and the errno value after the
call. -/
structure CharReadStep where
  result : Int
  errno : Nat
deriving DecidableEq, Repr

/-- The accumulation loop of `CFile::GetByteString` over the sequence of
native character reads it performs: characters are gathered until
`BYTE_END_OF_FILE` or a newline (consumed, not included) ends the loop;
a failing `GetByteCharacter` propagates its exception.  The fixed-size
chunk buffer of the source only batches the appends and is not modelled;
the accumulated result is the same.  `none` means the trace ended before
the loop did. -/
def GetByteStringLoop : List CharReadStep → Option (Except FileErrorKind (List Int))
  | [] => none
  | step :: rest =>
    match GetByteCharacter step.result step.errno with
    | Except.error e => some (Except.error e)
    | Except.ok c =>
      if BYTE_END_OF_FILE = c ∨ (10 : Int) = c then
        some (Except.ok [])
      else
        match GetByteStringLoop rest with
        | none => none
        | some (Except.error e) => some (Except.error e)
        | some (Except.ok s) => some (Except.ok (c :: s))

/-- Embedding of `CFile::GetByteString`: runs the accumulation loop from an
empty result. -/
def GetByteString (trace : List CharReadStep) :
    Option (Except FileErrorKind (List Int)) :=
  GetByteStringLoop trace

/-- The accumulation loop of `CFile::GetWideString`, structurally identical
to the byte variant but reading wide characters and comparing against
`WIDE_END_OF_FILE` and the wide newline. -/
def GetWideStringLoop : List CharReadStep → Option (Except FileErrorKind (List Int))
  | [] => none
  | step :: rest =>
    match GetWideCharacter step.result step.errno with
    | Except.error e => some (Except.error e)
    | Except.ok c =>
      if WIDE_END_OF_FILE = c ∨ (10 : Int) = c then
        some (Except.ok [])
      else
        match GetWideStringLoop rest with
        | none => none
        | some (Except.error e) => some (Except.error e)
        | some (Except.ok s) => some (Except.ok (c :: s))

/-- Embedding of `CFile::GetWideString`: runs the accumulation loop from an
empty result. -/
def GetWideString (trace : List CharReadStep) :
    Option (Except FileErrorKind (List Int)) :=
  GetWideStringLoop trace

/-- Model of the native `fputs` call on a byte stream whose written content
is a list of character codes: on success every character of the string is
appended and the returned count is the number of characters written; when
the environment makes the call fail (`fails`), a negative value is
returned and nothing is appended. -/
def fputsModel (streamContent : List Int) (s : List Int) (fails : Bool) :
    List Int × Int :=
  if fails then (streamContent, -1)
  else (streamContent ++ s, Int.ofNat s.length)

/-- Model of the native `fputc` call: on success the character is appended
and returned; on failure a negative value is returned. -/
def fputcModel (streamContent : List Int) (c : Int) (fails : Bool) :
    List Int × Int :=
  if fails then (streamContent, -1)
  else (streamContent ++ [c], c)

/-- Embedding of `CFile::PutByteString`: calls `fputs` and throws
`file_write_error` on a negative result, otherwise returns the stream and
the count of characters written that `fputs` reported. -/
def PutByteString (streamContent : List Int) (s : List Int) (fails : Bool) :
    Except FileErrorKind (List Int × Int) :=
  let r := fputsModel streamContent s fails
  if r.2 < 0 then Except.error FileErrorKind.WriteError
  else Except.ok r

/-- Embedding of `CFile::PutByteCharacter`: calls `fputc` and throws
`file_write_error` on a negative result. -/
def PutByteCharacter (streamContent : List Int) (c : Int) (fails : Bool) :
    Except FileErrorKind (List Int) :=
  let r := fputcModel streamContent c fails
  if r.2 < 0 then Except.error FileErrorKind.WriteError
  else Except.ok r.1

/-- Embedding of `CFile::PutByteLine`: writes the string with
`PutByteString`, then a newline with `PutByteCharacter`, and returns the
count reported by `PutByteString` plus one. -/
def PutByteLine (streamContent : List Int) (s : List Int)
    (failString failChar : Bool) : Except FileErrorKind (List Int × Int) := do
  let r ← PutByteString streamContent s failString
  let st2 ← PutByteCharacter r.1 10 failChar
  pure (st2, r.2 + 1)

/-- Embedding of `CFile::PutWideString`: calls `fputws` (modelled like
`fputs`) and throws `file_write_error` on a negative result. -/
def PutWideString (streamContent : List Int) (s : List Int) (fails : Bool) :
    Except FileErrorKind (List Int × Int) :=
  let r := fputsModel streamContent s fails
  if r.2 < 0 then Except.error FileErrorKind.WriteError
  else Except.ok r

/-- Embedding of `CFile::PutWideCharacter`: calls `fputwc` (modelled like
`fputc`) and throws `file_write_error` on a negative result. -/
def PutWideCharacter (streamContent : List Int) (c : Int) (fails : Bool) :
    Except FileErrorKind (List Int) :=
  let r := fputcModel streamContent c fails
  if r.2 < 0 then Except.error FileErrorKind.WriteError
  else Except.ok r.1

/-- Embedding of `CFile::PutWideLine`: writes the wide string, then a wide
newline, and returns the count reported by `PutWideString` plus one. -/
def PutWideLine (streamContent : List Int) (s : List Int)
    (failString failChar : Bool) : Except FileErrorKind (List Int × Int) := do
  let r ← PutWideString streamContent s failString
  let st2 ← PutWideCharacter r.1 10 failChar
  pure (st2, r.2 + 1)

/-- Stream state used by the binary read loop: the file position and length
as reported by the success paths of the native queries that back
`EndOfFile`.  `fread` advances the position by the bytes it transfers. -/
structure StreamState where
  position : Nat
  length : Nat
deriving DecidableEq, Repr

/-- The value of `EndOfFile()` on a stream state in which both native
queries succeed: position ≥ length. -/
def EndOfFileAt (st : StreamState) : Bool :=
  decide (st.position ≥ st.length)

/-- One native `fread` or `fwrite` outcome as seen by the retry loops.  The
native call transfers at most the element count it was asked for, so an
outcome is how many elements short of the request the call fell
(`shortfall`) together with the errno value after the call. -/
structure TransferStep where
  shortfall : Nat
  errno : Nat
deriving DecidableEq, Repr

/-- The retry loop of `CFile::ReadElements`: while fewer than the requested
elements have been read, issue a native read for the remainder; a short
read with nonzero errno throws `file_read_error`, a short read at
end-of-file breaks out returning the running total, and any other outcome
re-enters the loop.  `none` means the trace of native outcomes ended before
the loop did. -/
def ReadElementsLoop (ulElementSize ulTotalElementsToRead : Nat) :
    Nat → StreamState → List TransferStep →
    Option (Except FileErrorKind (Nat × StreamState))
  | got, st, trace =>
    if got < ulTotalElementsToRead then
      match trace with
      | [] => none
      | step :: rest =>
        let toRead := ulTotalElementsToRead - got
        let actuallyRead := toRead - min step.shortfall toRead
        let got' := got + actuallyRead
        let st' : StreamState :=
          { st with position := st.position + actuallyRead * ulElementSize }
        if actuallyRead < toRead then
          if step.errno ≠ 0 then
            some (Except.error FileErrorKind.ReadError)
          else if EndOfFileAt st' then
            some (Except.ok (got', st'))
          else
            ReadElementsLoop ulElementSize ulTotalElementsToRead got' st' rest
        else
          ReadElementsLoop ulElementSize ulTotalElementsToRead got' st' rest
    else
      some (Except.ok (got, st))

/-- Embedding of `CFile::ReadElements`: runs the retry loop with zero
elements read so far, returning the total elements read and the stream
state at return. -/
def ReadElements (ulElementSize ulTotalElementsToRead : Nat)
    (st : StreamState) (trace : List TransferStep) :
    Option (Except FileErrorKind (Nat × StreamState)) :=
  ReadElementsLoop ulElementSize ulTotalElementsToRead 0 st trace

/-- Embedding of `CFile::ReadBytes`: forwards to `ReadElements` with the
element size `sizeof(unsigned char) = 1`. -/
def ReadBytes (ulTotalBytesToRead : Nat) (st : StreamState)
    (trace : List TransferStep) :
    Option (Except FileErrorKind (Nat × StreamState)) :=
  ReadElements 1 ulTotalBytesToRead st trace

/-- The retry loop of `CFile::WriteElements`: while fewer than the
requested elements have been written, issue a native write for the
remainder; a short write with nonzero errno throws `file_write_error`, and
any other outcome re-enters the loop (there is no end-of-file exit on the
write side).  `none` means the trace ended before the loop did. -/
def WriteElementsLoop (ulElementSize ulTotalElementsToWrite : Nat) :
    Nat → List TransferStep → Option (Except FileErrorKind Nat)
  | got, trace =>
    if got < ulTotalElementsToWrite then
      match trace with
      | [] => none
      | step :: rest =>
        let toWrite := ulTotalElementsToWrite - got
        let actuallyWritten := toWrite - min step.shortfall toWrite
        let got' := got + actuallyWritten
        if actuallyWritten < toWrite ∧ step.errno ≠ 0 then
          some (Except.error FileErrorKind.WriteError)
        else
          WriteElementsLoop ulElementSize ulTotalElementsToWrite got' rest
    else
      some (Except.ok got)

/-- Embedding of `CFile::WriteElements`: runs the retry loop with zero
elements written so far. -/
def WriteElements (ulElementSize ulTotalElementsToWrite : Nat)
    (trace : List TransferStep) : Option (Except FileErrorKind Nat) :=
  WriteElementsLoop ulElementSize ulTotalElementsToWrite 0 trace

/-- Embedding of `CFile::WriteBytes`: forwards to `WriteElements` with the
element size `sizeof(unsigned char) = 1`. -/
def WriteBytes (ulTotalBytesToWrite : Nat) (trace : List TransferStep) :
    Option (Except FileErrorKind Nat) :=
  WriteElements 1 ulTotalBytesToWrite trace

/-- The argument preconditions asserted by `CFile::ReadBytes`: the handle
is a binary file opened readably, the buffer is non-null, and the byte
count is strictly positive. -/
def ReadBytesPre (t : FileType) (m : FileAccessMode)
    (bufferIsNull : Bool) (totalBytes : Nat) : Bool :=
  IsBinaryFile t && (IsReadOnly m || IsReadWrite m) &&
    !bufferIsNull && decide (0 < totalBytes)

/-- The argument preconditions asserted by `CFile::WriteBytes`: the handle
is a binary file opened writably, the buffer is non-null, and the byte
count is strictly positive. -/
def WriteBytesPre (t : FileType) (m : FileAccessMode)
    (bufferIsNull : Bool) (totalBytes : Nat) : Bool :=
  IsBinaryFile t && (IsWriteOnly m || IsReadWrite m) &&
    !bufferIsNull && decide (0 < totalBytes)

end CFile

namespace SpecModel

/-- Transcribed from the specification sentence on the mode-string mapping,
for the refinement comparison of claim C6: each access mode maps to a pair
of fopen strings, the first used for TEXT and the second for BINARY. -/
def fopenModeString (m : CFile.FileAccessMode) (t : CFile.FileType) : String :=
  match m with
  | CFile.FileAccessMode.READ =>
      match t with
      | CFile.FileType.TEXT => "r"
      | CFile.FileType.BINARY => "rb"
  | CFile.FileAccessMode.WRITE =>
      match t with
      | CFile.FileType.TEXT => "w"
      | CFile.FileType.BINARY => "wb"
  | CFile.FileAccessMode.APPEND =>
      match t with
      | CFile.FileType.TEXT => "a"
      | CFile.FileType.BINARY => "ab"
  | CFile.FileAccessMode.READ_EXTENDED =>
      match t with
      | CFile.FileType.TEXT => "r+"
      | CFile.FileType.BINARY => "rb+"
  | CFile.FileAccessMode.WRITE_EXTENDED =>
      match t with
      | CFile.FileType.TEXT => "w+"
      | CFile.FileType.BINARY => "wb+"
  | CFile.FileAccessMode.APPEND_EXTENDED =>
      match t with
      | CFile.FileType.TEXT => "a+"
      | CFile.FileType.BINARY => "ab+"

end SpecModel

end Aurora

namespace Aurora

/-! Theorems settling the claims about the embedded operations. -/

/-- C1 counterexample: when the native close fails (negative result), both
destructors report CloseError but leave the stored handle field unchanged,
because the throw happens before the clearing assignment; the descriptor is
not set to -1 and the stream pointer is not set to null. -/
theorem C1_close_failure_leaves_handle_cex :
    (PosixFile.destructor ⟨5⟩ (-1)).1 = Except.error FileErrorKind.CloseError ∧
    (PosixFile.destructor ⟨5⟩ (-1)).2.fileDescriptor = 5 ∧
    (PosixFile.destructor ⟨5⟩ (-1)).2.fileDescriptor ≠ -1 ∧
    (CFile.destructor ⟨some 7⟩ (-1)).1 = Except.error FileErrorKind.CloseError ∧
    (CFile.destructor ⟨some 7⟩ (-1)).2.filePointer ≠ none :=
  ⟨rfl, rfl, by decide, rfl, by decide⟩

/-- C1 amended: after the destructor runs, either the native close
succeeded and the stored handle field is invalidated (descriptor set to -1,
stream pointer set to null), or the close failed, the failure is reported
as a CloseError, and the handle field retains its previous value because
the exception skips the clearing assignment. -/
theorem C1_destructor_invalidation (h : PosixFileHandle) (ch : CFileHandle)
    (r : Int) :
    (r < 0 →
      PosixFile.destructor h r = (Except.error FileErrorKind.CloseError, h) ∧
      CFile.destructor ch r = (Except.error FileErrorKind.CloseError, ch)) ∧
    (0 ≤ r →
      PosixFile.destructor h r =
        (Except.ok (), { h with fileDescriptor := -1 }) ∧
      CFile.destructor ch r = (Except.ok (), { ch with filePointer := none })) := by
  constructor
  · intro hr
    simp [PosixFile.destructor, CFile.destructor, hr]
  · intro hr
    have hr' : ¬ r < 0 := by omega
    simp [PosixFile.destructor, CFile.destructor, hr']

/-- C1 witness: the amended theorem evaluated at a failing close and at a
succeeding close. -/
theorem C1_destructor_invalidation_witness :
    PosixFile.destructor ⟨5⟩ (-1) =
      (Except.error FileErrorKind.CloseError, ⟨5⟩) ∧
    CFile.destructor ⟨some 7⟩ 0 = (Except.ok (), ⟨none⟩) :=
  ⟨((C1_destructor_invalidation ⟨5⟩ ⟨some 7⟩ (-1)).1 (by norm_num)).1,
   ((C1_destructor_invalidation ⟨5⟩ ⟨some 7⟩ 0).2 (by norm_num)).2⟩

/-- C2 counterexample: on a failing native tell (negative result),
PosixFile::GetFilePosition raises SeekError, not the TellError that
CFile::GetFilePosition raises, so the two handle types do not raise the
same error kind for this positioning operation. -/
theorem C2_tell_kind_mismatch_cex :
    PosixFile.GetFilePosition (-1) = Except.error FileErrorKind.SeekError ∧
    CFile.GetFilePosition (-1) = Except.error FileErrorKind.TellError ∧
    FileErrorKind.SeekError ≠ FileErrorKind.TellError :=
  ⟨rfl, rfl, by decide⟩

/-- C2 amended: for every failing native positioning call, SetFilePosition
and the three seek operations raise SeekError in both handle types, but
GetFilePosition raises SeekError in the descriptor handle and TellError in
the buffered handle — the error-kind mapping agrees on all shared
positioning operations except GetFilePosition. -/
theorem C2_positioning_error_kinds (r : Int) (hr : r < 0) :
    PosixFile.GetFilePosition r = Except.error FileErrorKind.SeekError ∧
    CFile.GetFilePosition r = Except.error FileErrorKind.TellError ∧
    PosixFile.SetFilePosition r = Except.error FileErrorKind.SeekError ∧
    CFile.SetFilePosition r = Except.error FileErrorKind.SeekError ∧
    PosixFile.SeekSet r = Except.error FileErrorKind.SeekError ∧
    CFile.SeekSet r = Except.error FileErrorKind.SeekError ∧
    PosixFile.SeekCurrent r = Except.error FileErrorKind.SeekError ∧
    CFile.SeekCurrent r = Except.error FileErrorKind.SeekError ∧
    PosixFile.SeekEnd r = Except.error FileErrorKind.SeekError ∧
    CFile.SeekEnd r = Except.error FileErrorKind.SeekError := by
  simp [PosixFile.GetFilePosition, CFile.GetFilePosition,
    PosixFile.SetFilePosition, CFile.SetFilePosition,
    PosixFile.SeekSet, CFile.SeekSet,
    PosixFile.SeekCurrent, CFile.SeekCurrent,
    PosixFile.SeekEnd, CFile.SeekEnd, hr]

/-- C2 witness: the amended theorem evaluated at the failing native result
-1. -/
theorem C2_positioning_error_kinds_witness :
    PosixFile.GetFilePosition (-1) = Except.error FileErrorKind.SeekError ∧
    CFile.GetFilePosition (-1) = Except.error FileErrorKind.TellError :=
  ⟨(C2_positioning_error_kinds (-1) (by norm_num)).1,
   (C2_positioning_error_kinds (-1) (by norm_num)).2.1⟩

/-- C6: for every access mode and content type, the mode string the CFile
constructor passes to fopen is exactly the one the specification mapping
lists (READ to r and rb, WRITE to w and wb, APPEND to a and ab, and the
extended variants with a trailing plus). -/
theorem C6_fopen_mode_mapping (m : CFile.FileAccessMode) (t : CFile.FileType) :
    CFile.constructorFopenMode t m = SpecModel.fopenModeString m t := by
  cases m <;> cases t <;> rfl

/-- C10: calling GetByteString or GetWideString when the first native
character read reports end-of-file with errno zero returns the empty string
and raises no error, whatever native reads would have followed. -/
theorem C10_get_string_at_eof_returns_empty (rest : List CFile.CharReadStep) :
    CFile.GetByteString (⟨CFile.BYTE_END_OF_FILE, 0⟩ :: rest) =
      some (Except.ok []) ∧
    CFile.GetWideString (⟨CFile.WIDE_END_OF_FILE, 0⟩ :: rest) =
      some (Except.ok []) :=
  ⟨rfl, rfl⟩

/-- C9: the descriptor handle accepts a zero-byte request even with a null
buffer and accepts a null buffer only for zero-byte requests, whereas the
buffered handle rejects any zero-byte request and any null buffer as a
precondition violation for every file type and access mode. -/
theorem C9_zero_length_preconditions :
    (∀ b : Bool, PosixFile.ReadBytesPre b 0 = true ∧
      PosixFile.WriteBytesPre b 0 = true) ∧
    (∀ n : Nat, 0 < n → PosixFile.ReadBytesPre true n = false ∧
      PosixFile.WriteBytesPre true n = false) ∧
    (∀ (t : CFile.FileType) (m : CFile.FileAccessMode) (b : Bool),
      CFile.ReadBytesPre t m b 0 = false ∧ CFile.WriteBytesPre t m b 0 = false) ∧
    (∀ (t : CFile.FileType) (m : CFile.FileAccessMode) (n : Nat),
      CFile.ReadBytesPre t m true n = false ∧
      CFile.WriteBytesPre t m true n = false) := by
  refine ⟨?_, ?_, ?_, ?_⟩
  · intro b
    cases b <;> exact ⟨by decide, by decide⟩
  · intro n hn
    constructor <;>
      simp [PosixFile.ReadBytesPre, PosixFile.WriteBytesPre, Nat.pos_iff_ne_zero.mp hn]
  · intro t m b
    constructor <;> simp [CFile.ReadBytesPre, CFile.WriteBytesPre]
  · intro t m n
    constructor <;> simp [CFile.ReadBytesPre, CFile.WriteBytesPre]

/-- C9 witness: the preconditions evaluated at a null buffer with zero and
with five requested bytes. -/
theorem C9_zero_length_preconditions_witness :
    PosixFile.ReadBytesPre true 0 = true ∧
    PosixFile.ReadBytesPre true 5 = false ∧
    CFile.ReadBytesPre CFile.FileType.BINARY CFile.FileAccessMode.READ false 0 =
      false :=
  ⟨(C9_zero_length_preconditions.1 true).1,
   (C9_zero_length_preconditions.2.1 5 (by norm_num)).1,
   (C9_zero_length_preconditions.2.2.1 CFile.FileType.BINARY
     CFile.FileAccessMode.READ false).1⟩

/-- C3: on a successful write, PutByteLine and PutWideLine append the
content of the string followed by exactly one newline terminator to the
stream and return the number of characters of the string plus one; in
particular PutByteLine on the one-character string x returns 2. -/
theorem C3_put_line_writes_content_plus_terminator
    (streamContent s : List Int) :
    CFile.PutByteLine streamContent s false false =
      Except.ok (streamContent ++ s ++ [10], (s.length : Int) + 1) ∧
    CFile.PutWideLine streamContent s false false =
      Except.ok (streamContent ++ s ++ [10], (s.length : Int) + 1) ∧
    CFile.PutByteLine [] [120] false false = Except.ok ([120, 10], 2) := by
  have hlen : ¬ ((s.length : Int) < 0) := by omega
  refine ⟨?_, ?_, rfl⟩ <;>
    simp [CFile.PutByteLine, CFile.PutWideLine, CFile.PutByteString,
      CFile.PutWideString, CFile.PutByteCharacter, CFile.PutWideCharacter,
      CFile.fputsModel, CFile.fputcModel, hlen, Bind.bind, Except.bind,
      Pure.pure, Except.pure, List.append_assoc]

/-- C5: GetByteCharacter and GetWideCharacter raise ReadError exactly when
the native read returns the end-of-file marker and errno is nonzero, and
return the end-of-file marker as a normal value when errno is zero.  The
hypothesis is the native contract that the character read returns either
the end-of-file marker or a nonnegative character value. -/
theorem C5_get_character_error_iff (r : Int) (e : Nat)
    (hr : r = CFile.BYTE_END_OF_FILE ∨ 0 ≤ r) :
    (CFile.GetByteCharacter r e = Except.error FileErrorKind.ReadError ↔
      (r = CFile.BYTE_END_OF_FILE ∧ e ≠ 0)) ∧
    (CFile.GetWideCharacter r e = Except.error FileErrorKind.ReadError ↔
      (r = CFile.WIDE_END_OF_FILE ∧ e ≠ 0)) ∧
    (e = 0 → CFile.GetByteCharacter r e = Except.ok r ∧
      CFile.GetWideCharacter r e = Except.ok r) := by
  rcases hr with hr | hr
  · rw [CFile.BYTE_END_OF_FILE] at hr
    subst hr
    by_cases he : e = 0 <;>
      simp [CFile.GetByteCharacter, CFile.GetWideCharacter,
        CFile.BYTE_END_OF_FILE, CFile.WIDE_END_OF_FILE, he]
  · have hneg : ¬ (r < 0) := by omega
    have hne : ¬ (r = -1) := by omega
    simp [CFile.GetByteCharacter, CFile.GetWideCharacter,
      CFile.BYTE_END_OF_FILE, CFile.WIDE_END_OF_FILE, hneg, hne]

/-- C5 witness: the theorem evaluated at the end-of-file marker with a
nonzero errno (a ReadError) and the end-of-file marker with errno zero (a
normal return). -/
theorem C5_get_character_error_iff_witness :
    (CFile.GetByteCharacter (-1) 4 = Except.error FileErrorKind.ReadError ↔
      ((-1 : Int) = CFile.BYTE_END_OF_FILE ∧ (4 : Nat) ≠ 0)) ∧
    ((0 : Nat) = 0 → CFile.GetByteCharacter (-1) 0 = Except.ok (-1) ∧
      CFile.GetWideCharacter (-1) 0 = Except.ok (-1)) :=
  ⟨(C5_get_character_error_iff (-1) 4 (Or.inl rfl)).1,
   (C5_get_character_error_iff (-1) 0 (Or.inl rfl)).2.2⟩

/-- C7: for both handle types, when the native position and status queries
succeed with position p and length l, EndOfFile returns true exactly when
p is at least l, and GetBytesRemaining returns l minus p when p is below l
and zero otherwise. -/
theorem C7_end_of_file_and_bytes_remaining
    (pos : Int) (stat : Option Nat) (p l : Nat) :
    (CFile.GetFilePosition pos = Except.ok p →
      CFile.GetFileLength stat = Except.ok l →
      CFile.EndOfFile pos stat = Except.ok (decide (p ≥ l)) ∧
      (CFile.EndOfFile pos stat = Except.ok true ↔ p ≥ l) ∧
      CFile.GetBytesRemaining pos stat =
        Except.ok (if p < l then l - p else 0)) ∧
    (PosixFile.GetFilePosition pos = Except.ok p →
      PosixFile.GetFileLength stat = Except.ok l →
      PosixFile.EndOfFile pos stat = Except.ok (decide (p ≥ l)) ∧
      (PosixFile.EndOfFile pos stat = Except.ok true ↔ p ≥ l) ∧
      PosixFile.GetBytesRemaining pos stat =
        Except.ok (if p < l then l - p else 0)) := by
  constructor
  · intro h1 h2
    simp [CFile.EndOfFile, CFile.GetBytesRemaining, h1, h2,
      Bind.bind, Except.bind, Pure.pure, Except.pure]
  · intro h1 h2
    simp [PosixFile.EndOfFile, PosixFile.GetBytesRemaining, h1, h2,
      Bind.bind, Except.bind, Pure.pure, Except.pure]

/-- C7 witness: the theorem evaluated on both handle types at position 3
and length 5, where EndOfFile is false and two bytes remain. -/
theorem C7_end_of_file_and_bytes_remaining_witness :
    (CFile.EndOfFile 3 (some 5) = Except.ok false ∧
      CFile.GetBytesRemaining 3 (some 5) = Except.ok 2) ∧
    (PosixFile.EndOfFile 3 (some 5) = Except.ok false ∧
      PosixFile.GetBytesRemaining 3 (some 5) = Except.ok 2) := by
  have h := C7_end_of_file_and_bytes_remaining 3 (some 5) 3 5
  have hc := h.1 rfl rfl
  have hp := h.2 rfl rfl
  exact ⟨⟨hc.1, hc.2.2⟩, ⟨hp.1, hp.2.2⟩⟩

/-- Unfolding equation of the read retry loop on an empty trace. -/
theorem CFile.readElementsLoop_nil (size total got : Nat) (st : CFile.StreamState) :
    CFile.ReadElementsLoop size total got st [] =
      if got < total then none else some (Except.ok (got, st)) := rfl

/-- Unfolding equation of the read retry loop on a trace with a first
native outcome. -/
theorem CFile.readElementsLoop_cons (size total got : Nat) (st : CFile.StreamState)
    (step : CFile.TransferStep) (rest : List CFile.TransferStep) :
    CFile.ReadElementsLoop size total got st (step :: rest) =
      if got < total then
        if (total - got) - min step.shortfall (total - got) < total - got then
          if step.errno ≠ 0 then some (Except.error FileErrorKind.ReadError)
          else if CFile.EndOfFileAt
              ⟨st.position + ((total - got) - min step.shortfall (total - got)) * size,
                st.length⟩ then
            some (Except.ok
              (got + ((total - got) - min step.shortfall (total - got)),
               ⟨st.position + ((total - got) - min step.shortfall (total - got)) * size,
                st.length⟩))
          else
            CFile.ReadElementsLoop size total
              (got + ((total - got) - min step.shortfall (total - got)))
              ⟨st.position + ((total - got) - min step.shortfall (total - got)) * size,
                st.length⟩ rest
        else
          CFile.ReadElementsLoop size total
            (got + ((total - got) - min step.shortfall (total - got)))
            ⟨st.position + ((total - got) - min step.shortfall (total - got)) * size,
              st.length⟩ rest
      else some (Except.ok (got, st)) := rfl

/-- Whenever the read retry loop returns normally with a count below the
requested total, the stream state at return is at end-of-file. -/
theorem CFile.readElementsLoop_short_ok_eof (size total : Nat) :
    ∀ (trace : List CFile.TransferStep) (got : Nat) (st : CFile.StreamState)
      (n : Nat) (stF : CFile.StreamState),
      CFile.ReadElementsLoop size total got st trace =
        some (Except.ok (n, stF)) →
      n < total → CFile.EndOfFileAt stF = true := by
  intro trace
  induction trace with
  | nil =>
    intro got st n stF h hn
    rw [CFile.readElementsLoop_nil] at h
    split at h
    · exact absurd h (by simp)
    · simp at h
      omega
  | cons step rest ih =>
    intro got st n stF h hn
    rw [CFile.readElementsLoop_cons] at h
    split at h
    · split at h
      · split at h
        · exact absurd h (by simp)
        · split at h
          case isTrue heof =>
            simp at h
            exact h.2 ▸ heof
          case isFalse heof =>
            exact ih _ _ _ _ h hn
      · exact ih _ _ _ _ h hn
    · simp at h
      omega

/-- C4: inside the read retry loop of a binary read-capable handle with a
positive element size and count, a short native read with nonzero errno
raises ReadError immediately; a short native read with errno zero and
end-of-file not reached re-enters the loop with the updated running total
and stream position; and whenever ReadElements returns normally, the
returned element count is below the requested count only when the stream
is at end-of-file, with no error raised. -/
theorem C4_read_elements_retry (size total got : Nat) (st : CFile.StreamState)
    (step : CFile.TransferStep) (rest : List CFile.TransferStep)
    (hsize : 0 < size) (htotal : 0 < total) (hgot : got < total) :
    (0 < step.shortfall → step.errno ≠ 0 →
      CFile.ReadElementsLoop size total got st (step :: rest) =
        some (Except.error FileErrorKind.ReadError)) ∧
    (0 < step.shortfall → step.errno = 0 →
      CFile.EndOfFileAt
        ⟨st.position + ((total - got) - min step.shortfall (total - got)) * size,
          st.length⟩ = false →
      CFile.ReadElementsLoop size total got st (step :: rest) =
        CFile.ReadElementsLoop size total
          (got + ((total - got) - min step.shortfall (total - got)))
          ⟨st.position + ((total - got) - min step.shortfall (total - got)) * size,
            st.length⟩ rest) ∧
    (∀ (trace : List CFile.TransferStep) (n : Nat) (stF : CFile.StreamState),
      CFile.ReadElements size total st trace = some (Except.ok (n, stF)) →
      n < total → CFile.EndOfFileAt stF = true) := by
  refine ⟨?_, ?_, ?_⟩
  · intro hs he
    rw [CFile.readElementsLoop_cons, if_pos hgot, if_pos (by omega), if_pos he]
  · intro hs he heof
    rw [CFile.readElementsLoop_cons, if_pos hgot, if_pos (by omega),
      if_neg (by simp [he]), if_neg (by simp [heof])]
  · intro trace n stF h hn
    exact CFile.readElementsLoop_short_ok_eof size total trace 0 st n stF h hn

/-- C4 witness: a short read with errno 5 raises ReadError, and a
two-element read against a request for three on a two-byte file returns
two elements at end-of-file. -/
theorem C4_read_elements_retry_witness :
    CFile.ReadElementsLoop 1 3 0 ⟨0, 10⟩ [⟨2, 5⟩] =
      some (Except.error FileErrorKind.ReadError) ∧
    CFile.EndOfFileAt ⟨2, 2⟩ = true :=
  ⟨(C4_read_elements_retry 1 3 0 ⟨0, 10⟩ ⟨2, 5⟩ []
      (by decide) (by decide) (by decide)).1 (by decide) (by decide),
   (C4_read_elements_retry 1 3 0 ⟨0, 2⟩ ⟨2, 5⟩ []
      (by decide) (by decide) (by decide)).2.2 [⟨1, 0⟩] 2 ⟨2, 2⟩ rfl
      (by decide)⟩

/-- Unfolding equation of the write retry loop on an empty trace. -/
theorem CFile.writeElementsLoop_nil (size total got : Nat) :
    CFile.WriteElementsLoop size total got [] =
      if got < total then none else some (Except.ok got) := rfl

/-- Unfolding equation of the write retry loop on a trace with a first
native outcome. -/
theorem CFile.writeElementsLoop_cons (size total got : Nat)
    (step : CFile.TransferStep) (rest : List CFile.TransferStep) :
    CFile.WriteElementsLoop size total got (step :: rest) =
      if got < total then
        if (total - got) - min step.shortfall (total - got) < total - got ∧
            step.errno ≠ 0 then
          some (Except.error FileErrorKind.WriteError)
        else
          CFile.WriteElementsLoop size total
            (got + ((total - got) - min step.shortfall (total - got))) rest
      else some (Except.ok got) := rfl

/-- Whenever the write retry loop returns normally from a running total
not above the requested count, the returned count equals the requested
count. -/
theorem CFile.writeElementsLoop_ok (size total : Nat) :
    ∀ (trace : List CFile.TransferStep) (got n : Nat),
      CFile.WriteElementsLoop size total got trace = some (Except.ok n) →
      got ≤ total → n = total := by
  intro trace
  induction trace with
  | nil =>
    intro got n h hle
    rw [CFile.writeElementsLoop_nil] at h
    split at h
    · exact absurd h (by simp)
    · simp at h
      omega
  | cons step rest ih =>
    intro got n h hle
    rw [CFile.writeElementsLoop_cons] at h
    split at h
    · split at h
      · exact absurd h (by simp)
      · exact ih _ _ h (by omega)
    · simp at h
      omega

/-- C8: whenever WriteElements (and hence WriteBytes) returns normally,
the returned element count equals the requested count; inside the loop, a
short native write with nonzero errno raises WriteError, and any other
outcome re-enters the loop with the updated running total, so the buffered
write path never reports a short write. -/
theorem C8_write_never_short (size total : Nat)
    (hsize : 0 < size) (htotal : 0 < total) :
    (∀ (trace : List CFile.TransferStep) (n : Nat),
      CFile.WriteElements size total trace = some (Except.ok n) → n = total) ∧
    (∀ (trace : List CFile.TransferStep) (n : Nat),
      CFile.WriteBytes total trace = some (Except.ok n) → n = total) ∧
    (∀ (got : Nat) (step : CFile.TransferStep) (rest : List CFile.TransferStep),
      got < total → 0 < step.shortfall → step.errno ≠ 0 →
        CFile.WriteElementsLoop size total got (step :: rest) =
          some (Except.error FileErrorKind.WriteError)) ∧
    (∀ (got : Nat) (step : CFile.TransferStep) (rest : List CFile.TransferStep),
      got < total → step.errno = 0 →
        CFile.WriteElementsLoop size total got (step :: rest) =
          CFile.WriteElementsLoop size total
            (got + ((total - got) - min step.shortfall (total - got))) rest) := by
  refine ⟨?_, ?_, ?_, ?_⟩
  · intro trace n h
    exact CFile.writeElementsLoop_ok size total trace 0 n h (by omega)
  · intro trace n h
    exact CFile.writeElementsLoop_ok 1 total trace 0 n h (by omega)
  · intro got step rest hgot hs he
    rw [CFile.writeElementsLoop_cons, if_pos hgot, if_pos ⟨by omega, he⟩]
  · intro got step rest hgot he
    rw [CFile.writeElementsLoop_cons, if_pos hgot, if_neg (by simp [he])]

/-- C8 witness: a two-byte WriteBytes that succeeds after one retry
returns exactly two, and a short write with errno 7 raises WriteError. -/
theorem C8_write_never_short_witness :
    (2 : Nat) = 2 ∧
    CFile.WriteElementsLoop 1 2 0 [⟨1, 7⟩] =
      some (Except.error FileErrorKind.WriteError) :=
  ⟨(C8_write_never_short 1 2 (by decide) (by decide)).2.1 [⟨1, 0⟩, ⟨0, 0⟩] 2 rfl,
   (C8_write_never_short 1 2 (by decide) (by decide)).2.2.1 0 ⟨1, 7⟩ []
     (by decide) (by decide) (by decide)⟩

end Aurora
